import Mathlib

/-!
Verification of the trace discovery, batch-ordering and prove/verify
orchestration pipeline of `src/zkevm/examples/prove.rs`.

The Rust functions are shallowly embedded as Lean functions.  Filesystem
access (`glob`, `std::fs::metadata`) and environment variables are
abstracted into explicit parameters; a Rust `unwrap()` panic is embedded
as an `Except.error` carrying the error name the specification assigns to
that failure site.  `u64` block heights are embedded as `Nat` (the code
never performs height arithmetic, only comparison, so no wrap-around is
involved).
-/

namespace ScrollZkevm

/-- Embeds the `header.number : Option<U64>` field of `types::eth::BlockTrace`
that `load_batch_traces` reads (`trace.header.number.unwrap().as_u64()`). -/
structure BlockHeader where
  number : Option Nat
deriving DecidableEq, Repr

/-- Embeds `types::eth::BlockTrace`, restricted to the single field the
pipeline under verification inspects. -/
structure BlockTrace where
  header : BlockHeader
deriving DecidableEq, Repr

/-- The error taxonomy of the specification.  In the Rust source the
failures are `unwrap()` panics; each panic site is mapped to the error the
specification names for that site. -/
inductive PipelineError where
  | configurationError
  | traceLoadError
  | missingBlockHeightError
  | verificationError
deriving DecidableEq, Repr

/-- Result of `std::fs::metadata`: the pipeline only consults `is_dir()`. -/
structure FsMeta where
  is_dir : Bool
deriving DecidableEq, Repr

/-- Abstraction of the filesystem as the pipeline observes it:
`glob` is the enumeration `glob("{batch_dir}/**/*.json")` (order
unconstrained), `readTrace` is the content a path deserializes to
(`none` = unreadable or malformed), `metadata` is `std::fs::metadata`
(`none` = metadata cannot be read). -/
structure Fs where
  glob : String → List String
  readTrace : String → Option BlockTrace
  metadata : String → Option FsMeta

/-- Modelled from the spec: `get_block_trace_from_file` lives in
`zkevm::utils`, outside the visible source.  Per the TraceLoader contract
it deserializes the file into a `BlockTrace` or fails the run
(`TraceLoadError`); no partial result is returned. -/
def get_block_trace_from_file (fs : Fs) (path : String) :
    Except PipelineError BlockTrace :=
  match fs.readTrace path with
  | some t => .ok t
  | none => .error .traceLoadError

/-- The body of the closure mapped over `file_names` in
`load_batch_traces`: load the trace, then read
`trace.header.number.unwrap().as_u64()`; a missing number is the
`MissingBlockHeightError` panic site. -/
def loadTriple (fs : Fs) (trace_path : String) :
    Except PipelineError (String × BlockTrace × Nat) := do
  let trace ← get_block_trace_from_file fs trace_path
  match trace.header.number with
  | some h => .ok (trace_path, trace, h)
  | none => .error .missingBlockHeightError

/-- The `map … collect` over the globbed file names, in enumeration
order; the first failing element aborts (a panic propagates out of the
iterator, leaving no partial vector). -/
def loadTriples (fs : Fs) : List String → Except PipelineError (List (String × BlockTrace × Nat))
  | [] => .ok []
  | p :: ps => do
    let t ← loadTriple fs p
    let rest ← loadTriples fs ps
    .ok (t :: rest)

/-- The comparator `|a, b| a.2.cmp(&b.2)` of the `sort_by` call, as the
boolean `≤` on the height component that a stable sort consumes. -/
def heightLe (a b : String × BlockTrace × Nat) : Bool :=
  a.2.2 ≤ b.2.2

/-- Embeds `load_batch_traces`: glob the batch directory, load each file
with its height, stable-sort by height (Rust `sort_by` is a stable sort;
`List.mergeSort` is the stable sort of the Lean library), and unzip into
(paths, traces). -/
def load_batch_traces (fs : Fs) (batch_dir : String) :
    Except PipelineError (List String × List BlockTrace) := do
  let names_and_traces ← loadTriples fs (fs.glob batch_dir)
  let sorted := names_and_traces.mergeSort heightLe
  .ok (sorted.map (fun x => x.1), sorted.map (fun x => x.2.1))

/-- Embeds `parse_trace_path_from_mode` verbatim. -/
def parse_trace_path_from_mode (mode : String) : String :=
  match mode with
  | "empty" => "./zkevm/tests/traces/empty.json"
  | "greeter" => "./zkevm/tests/traces/greeter.json"
  | "single" => "./zkevm/tests/traces/erc20/single.json"
  | "multiple" => "./zkevm/tests/traces/erc20/multiple.json"
  | "native" => "./zkevm/tests/traces/native_transfer.json"
  | "dao" => "./zkevm/tests/traces/dao/propose.json"
  | "nft" => "./zkevm/tests/traces/nft/mint.json"
  | "sushi" => "./zkevm/tests/traces/sushi/chef_withdraw.json"
  | _ => "./zkevm/tests/traces/erc20/multiple.json"

/-- `format!("{:02}", i)` for the bridge path indices. -/
def pad2 (i : Nat) : String :=
  if i < 10 then "0" ++ toString i else toString i

/-- One path `format!("zkevm/tests/traces/bridge/{:02}.json", i)`. -/
def bridge_path (i : Nat) : String :=
  "zkevm/tests/traces/bridge/" ++ pad2 i ++ ".json"

/-- Embeds Rust `str::to_lowercase`, character-wise (the mode strings are
ASCII, where Rust's Unicode lowercasing and per-character lowercasing
agree). -/
def to_lowercase (s : String) : String :=
  ⟨s.data.map Char.toLower⟩

/-- `str::ends_with`, at the level of the underlying character list. -/
def ends_with (s suffix : String) : Bool :=
  suffix.data.isSuffixOf s.data

/-- Embeds the `paths` computation of `load_block_traces_for_test`.
`trace_path` is the value of `read_env_var("TRACE_PATH", "")` and `mode`
the value of `read_env_var("MODE", "multiple")`, so an unset variable
arrives here already replaced by its default.  The
`std::fs::metadata(&trace_path).unwrap()` panic site is the
specification's `ConfigurationError`. -/
def resolve_trace_paths (fs : Fs) (trace_path mode : String) :
    Except PipelineError (List String) :=
  if trace_path.isEmpty then
    if to_lowercase mode == "batch" || to_lowercase mode == "pack" then
      .ok ((List.range' 1 10).map bridge_path)
    else
      .ok [parse_trace_path_from_mode mode]
  else
    match fs.metadata trace_path with
    | none => .error .configurationError
    | some m =>
      if !m.is_dir then .ok [trace_path]
      else (load_batch_traces fs trace_path).map (fun x => x.1)

/-- The final `paths.iter().map(get_block_trace_from_file).collect()`. -/
def loadTraces (fs : Fs) : List String → Except PipelineError (List BlockTrace)
  | [] => .ok []
  | p :: ps => do
    let t ← get_block_trace_from_file fs p
    let rest ← loadTraces fs ps
    .ok (t :: rest)

/-- Embeds `load_block_traces_for_test`: resolve the path list, then load
every resolved path. -/
def load_block_traces_for_test (fs : Fs) (trace_path mode : String) :
    Except PipelineError (List String × List BlockTrace) := do
  let paths ← resolve_trace_paths fs trace_path mode
  let traces ← loadTraces fs paths
  .ok (paths, traces)

/-- Modelled from the spec: the `ProofArtifact` produced by
`Prover::create_target_circuit_proof_batch` (zkevm/src/prover.rs, outside
the visible source) is opaque; per the spec it is bound to a circuit
identity and the proved batch, and must be serializable without loss. -/
structure ProofArtifact where
  circuit : String
  batch : List BlockTrace
deriving DecidableEq, Repr

/-- Modelled from the spec: proving converts the ordered batch and the
circuit identity into a `ProofArtifact`; proof generation is deterministic
for a fixed seed (`rng` is the deterministic source seeded from the fixed
all-zero seed).  The conditions under which the external engine rejects a
batch are internal to it and out of the spec's scope. -/
def create_target_circuit_proof_batch (circuit_name : String)
    (block_traces : List BlockTrace) (rng : Nat) :
    Except PipelineError ProofArtifact :=
  let _ := rng
  .ok { circuit := circuit_name, batch := block_traces }

/-- Modelled from the spec: `serde_json::to_writer_pretty` persists the
artifact "in a structured, human-inspectable serialized form …
re-loadable/deserializable by the verification path without loss". -/
def serialize_proof (p : ProofArtifact) : String × List (Option Nat) :=
  (p.circuit, p.batch.map (fun t => t.header.number))

/-- Modelled from the spec: reading the persisted artifact back. -/
def deserialize_proof (s : String × List (Option Nat)) : ProofArtifact :=
  { circuit := s.1, batch := s.2.map (fun n => { header := { number := n } }) }

/-- Modelled from the spec: `Verifier::verify_target_circuit_proof`
(zkevm/src/verifier.rs, outside the visible source) checks a proof
artifact against the circuit identity, using the same parameter material;
an artifact produced by the prover for that same circuit identity passes. -/
def verify_target_circuit_proof (circuit_name : String) (p : ProofArtifact) :
    Except PipelineError Unit :=
  if p.circuit == circuit_name then .ok () else .error .verificationError

/-- Embeds `test_target_circuit_prove_verify`: load the traces, prove the
batch with the fixed all-zero seed, persist the artifact, and assert that
verification of the persisted artifact succeeds. -/
def test_target_circuit_prove_verify (fs : Fs) (trace_path mode circuit_name : String) :
    Except PipelineError Unit := do
  let r ← load_block_traces_for_test fs trace_path mode
  let proof ← create_target_circuit_proof_batch circuit_name r.2 0
  let persisted := serialize_proof proof
  verify_target_circuit_proof circuit_name (deserialize_proof persisted)

/-! ### Concrete fixtures used by the witness theorems -/

/-- A trace whose header carries block height `n`. -/
def trOf (n : Nat) : BlockTrace :=
  { header := { number := some n } }

/-- A trace whose header carries no block height. -/
def trNone : BlockTrace :=
  { header := { number := none } }

/-- A directory of three well-formed traces with distinct heights 50, 10,
30, enumerated in that (non-sorted) order. -/
def fsA : Fs :=
  { glob := fun _ => ["b.json", "a.json", "c.json"]
    readTrace := fun p =>
      if p = "b.json" then some (trOf 50)
      else if p = "a.json" then some (trOf 10)
      else if p = "c.json" then some (trOf 30)
      else none
    metadata := fun _ => some { is_dir := true } }

/-- A directory where the second enumerated trace lacks a block height. -/
def fsMissing : Fs :=
  { glob := fun _ => ["b.json", "a.json"]
    readTrace := fun p =>
      if p = "b.json" then some (trOf 50)
      else if p = "a.json" then some trNone
      else none
    metadata := fun _ => some { is_dir := true } }

/-- A directory with two traces sharing height 7 (enumerated "y" before
"x") plus one of height 3. -/
def fsDup : Fs :=
  { glob := fun _ => ["y.json", "x.json", "z.json"]
    readTrace := fun p =>
      if p = "y.json" then some (trOf 7)
      else if p = "x.json" then some (trOf 7)
      else if p = "z.json" then some (trOf 3)
      else none
    metadata := fun _ => some { is_dir := true } }

/-- A filesystem with a single plain (non-directory) trace file. -/
def fsSingle : Fs :=
  { glob := fun _ => []
    readTrace := fun p => if p = "one.json" then some (trOf 5) else none
    metadata := fun p => if p = "one.json" then some { is_dir := false } else none }

/-- A filesystem on which no metadata can be read. -/
def fsNoMeta : Fs :=
  { glob := fun _ => []
    readTrace := fun _ => none
    metadata := fun _ => none }

/-! ### Helper lemmas -/

theorem heightLe_trans (a b c : String × BlockTrace × Nat) :
    heightLe a b → heightLe b c → heightLe a c := by
  simp only [heightLe, decide_eq_true_eq]
  omega

theorem heightLe_total (a b : String × BlockTrace × Nat) :
    heightLe a b || heightLe b a := by
  simp only [heightLe, Bool.or_eq_true, decide_eq_true_eq]
  omega

theorem loadTriple_ok_inv {fs : Fs} {p : String} {x : String × BlockTrace × Nat}
    (h : loadTriple fs p = .ok x) :
    x.1 = p ∧ fs.readTrace p = some x.2.1 ∧ x.2.1.header.number = some x.2.2 := by
  unfold loadTriple get_block_trace_from_file at h
  cases hr : fs.readTrace p with
  | none => rw [hr] at h; simp [Bind.bind, Except.bind] at h
  | some t =>
    rw [hr] at h
    simp only [Bind.bind, Except.bind] at h
    cases hn : t.header.number with
    | none => rw [hn] at h; simp at h
    | some n =>
      rw [hn] at h
      simp only [Except.ok.injEq] at h
      subst h
      exact ⟨rfl, by simp [hr], by simpa using hn⟩

theorem loadTriples_ok_mem {fs : Fs} :
    ∀ {ps : List String} {l : List (String × BlockTrace × Nat)},
      loadTriples fs ps = .ok l →
      ∀ x ∈ l, x.1 ∈ ps ∧ fs.readTrace x.1 = some x.2.1 ∧
        x.2.1.header.number = some x.2.2 := by
  intro ps
  induction ps with
  | nil =>
    intro l h x hx
    simp only [loadTriples, Except.ok.injEq] at h
    subst h
    simp at hx
  | cons p ps ih =>
    intro l h x hx
    unfold loadTriples at h
    cases ht : loadTriple fs p with
    | error e => rw [ht] at h; simp [Bind.bind, Except.bind] at h
    | ok t =>
      rw [ht] at h
      simp only [Bind.bind, Except.bind] at h
      cases hrest : loadTriples fs ps with
      | error e => rw [hrest] at h; simp at h
      | ok rest =>
        rw [hrest] at h
        simp only [Except.ok.injEq] at h
        subst h
        rcases List.mem_cons.mp hx with hx | hx
        · subst hx
          obtain ⟨h1, h2, h3⟩ := loadTriple_ok_inv ht
          exact ⟨by rw [h1]; exact List.mem_cons_self _ _, by rw [h1]; exact h2, h3⟩
        · obtain ⟨h1, h2, h3⟩ := ih hrest x hx
          exact ⟨List.mem_cons_of_mem _ h1, h2, h3⟩

theorem load_batch_traces_ok_inv {fs : Fs} {dir : String}
    {paths : List String} {traces : List BlockTrace}
    (h : load_batch_traces fs dir = .ok (paths, traces)) :
    ∃ l, loadTriples fs (fs.glob dir) = .ok l ∧
      paths = (l.mergeSort heightLe).map (fun x => x.1) ∧
      traces = (l.mergeSort heightLe).map (fun x => x.2.1) := by
  unfold load_batch_traces at h
  cases hl : loadTriples fs (fs.glob dir) with
  | error e => rw [hl] at h; simp [Bind.bind, Except.bind] at h
  | ok l =>
    rw [hl] at h
    simp only [Bind.bind, Except.bind, Except.ok.injEq, Prod.mk.injEq] at h
    exact ⟨l, rfl, h.1.symm, h.2.symm⟩

/-- C1: for every batch directory whose trace files carry pairwise
distinct block heights, a successful `load_batch_traces` returns traces
whose height sequence is non-decreasing, whatever order the filesystem
enumeration (`fs.glob`) yields the files in.  (Proved without even using
the distinctness assumption: the sort makes the heights non-decreasing
for every successful run.) -/
theorem load_batch_traces_heights_sorted (fs : Fs) (dir : String)
    (paths : List String) (traces : List BlockTrace)
    (h : load_batch_traces fs dir = .ok (paths, traces)) :
    List.Sorted (· ≤ ·) (traces.map (fun t => t.header.number.getD 0)) := by
  obtain ⟨l, hl, _, ht⟩ := load_batch_traces_ok_inv h
  subst ht
  have hsorted : (l.mergeSort heightLe).Pairwise (fun a b => heightLe a b) :=
    List.sorted_mergeSort heightLe_trans heightLe_total l
  rw [List.map_map]
  refine List.pairwise_map.mpr ?_
  refine List.Pairwise.imp_of_mem ?_ hsorted
  intro a b ha hb hab
  have hia := (loadTriples_ok_mem hl a (List.mem_mergeSort.mp ha)).2.2
  have hib := (loadTriples_ok_mem hl b (List.mem_mergeSort.mp hb)).2.2
  simp only [Function.comp, hia, hib, Option.getD_some]
  simpa [heightLe] using hab

/-- Witness for C1 on `fsA` (heights enumerated as 50, 10, 30). -/
theorem load_batch_traces_heights_sorted_witness :
    List.Sorted (· ≤ ·) (([trOf 10, trOf 30, trOf 50]).map (fun t => t.header.number.getD 0)) :=
  load_batch_traces_heights_sorted fsA "dir" ["a.json", "c.json", "b.json"]
    [trOf 10, trOf 30, trOf 50]
    (by simp [load_batch_traces, loadTriples, loadTriple, get_block_trace_from_file,
          fsA, trOf, List.mergeSort, List.merge, heightLe, Bind.bind, Except.bind])

/-- C3: whenever `load_batch_traces` succeeds, the two returned lists are
index-aligned: they have equal length and the i-th trace is the one
loaded from the i-th path. -/
theorem load_batch_traces_index_aligned (fs : Fs) (dir : String)
    (paths : List String) (traces : List BlockTrace)
    (h : load_batch_traces fs dir = .ok (paths, traces)) :
    paths.length = traces.length ∧
    ∀ i (hi : i < paths.length) (hj : i < traces.length),
      fs.readTrace (paths.get ⟨i, hi⟩) = some (traces.get ⟨i, hj⟩) := by
  obtain ⟨l, hl, hp, ht⟩ := load_batch_traces_ok_inv h
  subst hp ht
  constructor
  · simp
  · intro i hi hj
    simp only [List.get_eq_getElem, List.getElem_map]
    have hmem : (l.mergeSort heightLe).get ⟨i, by simpa using hi⟩ ∈ l.mergeSort heightLe :=
      List.get_mem _ _ _
    have := (loadTriples_ok_mem hl _ (List.mem_mergeSort.mp hmem)).2.1
    simpa using this

/-- Witness for C3 on `fsA`. -/
theorem load_batch_traces_index_aligned_witness :
    (["a.json", "c.json", "b.json"] : List String).length =
      ([trOf 10, trOf 30, trOf 50] : List BlockTrace).length ∧
    ∀ i (hi : i < (["a.json", "c.json", "b.json"] : List String).length)
      (hj : i < ([trOf 10, trOf 30, trOf 50] : List BlockTrace).length),
      fsA.readTrace ((["a.json", "c.json", "b.json"] : List String).get ⟨i, hi⟩) =
        some (([trOf 10, trOf 30, trOf 50] : List BlockTrace).get ⟨i, hj⟩) :=
  load_batch_traces_index_aligned fsA "dir" ["a.json", "c.json", "b.json"]
    [trOf 10, trOf 30, trOf 50]
    (by simp [load_batch_traces, loadTriples, loadTriple, get_block_trace_from_file,
          fsA, trOf, List.mergeSort, List.merge, heightLe, Bind.bind, Except.bind])

theorem loadTriples_missing_height {fs : Fs} :
    ∀ {ps : List String},
      (∀ p ∈ ps, ∃ t, fs.readTrace p = some t) →
      (∃ p ∈ ps, ∃ t, fs.readTrace p = some t ∧ t.header.number = none) →
      loadTriples fs ps = .error .missingBlockHeightError := by
  intro ps
  induction ps with
  | nil => intro _ hmiss; simp at hmiss
  | cons p ps ih =>
    intro hload hmiss
    obtain ⟨t, ht⟩ := hload p (List.mem_cons_self _ _)
    unfold loadTriples
    cases hn : t.header.number with
    | none =>
      simp [loadTriple, get_block_trace_from_file, ht, hn, Bind.bind, Except.bind]
    | some k =>
      have hTriple : loadTriple fs p = .ok (p, t, k) := by
        simp [loadTriple, get_block_trace_from_file, ht, hn, Bind.bind, Except.bind]
      have hrest : loadTriples fs ps = .error .missingBlockHeightError := by
        apply ih
        · intro q hq
          exact hload q (List.mem_cons_of_mem _ hq)
        · rcases hmiss with ⟨q, hq, t', ht', hn'⟩
          rcases List.mem_cons.mp hq with rfl | hq'
          · rw [ht] at ht'
            injection ht' with e
            subst e
            rw [hn] at hn'
            cases hn'
          · exact ⟨q, hq', t', ht', hn'⟩
      simp [Bind.bind, Except.bind, hTriple, hrest]

/-- C2: if every enumerated trace file in the batch directory loads, but
at least one loaded trace lacks a block height, then `load_batch_traces`
fails with `MissingBlockHeightError` and returns no (partial) batch — it
neither falls back to arrival order nor treats the missing height as
zero. -/
theorem load_batch_traces_missing_height (fs : Fs) (dir : String)
    (hload : ∀ p ∈ fs.glob dir, ∃ t, fs.readTrace p = some t)
    (hmiss : ∃ p ∈ fs.glob dir, ∃ t, fs.readTrace p = some t ∧ t.header.number = none) :
    load_batch_traces fs dir = .error .missingBlockHeightError := by
  unfold load_batch_traces
  rw [loadTriples_missing_height hload hmiss]
  simp [Bind.bind, Except.bind]

/-- Witness for C2 on `fsMissing` ("a.json" has no height). -/
theorem load_batch_traces_missing_height_witness :
    load_batch_traces fsMissing "dir" = .error .missingBlockHeightError :=
  load_batch_traces_missing_height fsMissing "dir"
    (by
      intro p hp
      simp only [fsMissing, List.mem_cons, List.not_mem_nil, or_false] at hp
      rcases hp with rfl | rfl
      · exact ⟨trOf 50, by decide⟩
      · exact ⟨trNone, by decide⟩)
    ⟨"a.json", by simp [fsMissing], trNone, by decide, rfl⟩

theorem filter_mergeSort_eq (l : List (String × BlockTrace × Nat))
    (p : String × BlockTrace × Nat → Bool)
    (hp : ∀ a ∈ l, ∀ b ∈ l, p a = true → p b = true → heightLe a b = true) :
    (l.mergeSort heightLe).filter p = l.filter p := by
  have hsub : List.Sublist (l.filter p) l := List.filter_sublist l
  have hpair : (l.filter p).Pairwise (fun a b => heightLe a b = true) := by
    apply List.pairwise_of_forall_mem_list
    intro a ha b hb
    exact hp a (List.mem_of_mem_filter ha) b (List.mem_of_mem_filter hb)
      (List.of_mem_filter ha) (List.of_mem_filter hb)
  have h1 : List.Sublist (l.filter p) (l.mergeSort heightLe) :=
    List.sublist_mergeSort heightLe_trans heightLe_total hpair hsub
  have h2 : (l.filter p).filter p = l.filter p :=
    List.filter_eq_self.mpr (fun a ha => List.of_mem_filter ha)
  have h3 : List.Sublist (l.filter p) ((l.mergeSort heightLe).filter p) := by
    have hf := h1.filter p
    rwa [h2] at hf
  have h4 : ((l.mergeSort heightLe).filter p).length = (l.filter p).length :=
    ((List.mergeSort_perm l heightLe).filter p).length_eq
  exact (h3.eq_of_length h4.symm).symm

/-- C4: the height sort is stable.  Whenever every enumerated file loads
with a height present — duplicated heights allowed — assembly succeeds
(it does not fail on ties), and for each height the traces carrying it
appear in the output in their original enumeration order. -/
theorem load_batch_traces_stable (fs : Fs) (dir : String)
    (l : List (String × BlockTrace × Nat))
    (h : loadTriples fs (fs.glob dir) = .ok l) :
    ∃ paths traces, load_batch_traces fs dir = .ok (paths, traces) ∧
      ∀ hgt : Nat,
        traces.filter (fun t => t.header.number == some hgt) =
          (l.map (fun x => x.2.1)).filter (fun t => t.header.number == some hgt) := by
  refine ⟨(l.mergeSort heightLe).map (fun x => x.1),
    (l.mergeSort heightLe).map (fun x => x.2.1), ?_, ?_⟩
  · unfold load_batch_traces
    rw [h]
    simp [Bind.bind, Except.bind]
  · intro hgt
    rw [List.filter_map, List.filter_map]
    congr 1
    apply filter_mergeSort_eq
    intro a ha b hb hpa hpb
    have hia := (loadTriples_ok_mem h a ha).2.2
    have hib := (loadTriples_ok_mem h b hb).2.2
    simp only [Function.comp, hia, beq_iff_eq, Option.some.injEq] at hpa
    simp only [Function.comp, hib, beq_iff_eq, Option.some.injEq] at hpb
    simp [heightLe, hpa, hpb]

/-- Witness for C4 on `fsDup` (two traces of height 7, enumerated
"y.json" then "x.json"). -/
theorem load_batch_traces_stable_witness :
    ∃ paths traces, load_batch_traces fsDup "dir" = .ok (paths, traces) ∧
      ∀ hgt : Nat,
        traces.filter (fun t => t.header.number == some hgt) =
          (([("y.json", trOf 7, 7), ("x.json", trOf 7, 7),
             ("z.json", trOf 3, 3)]).map (fun x => x.2.1)).filter
            (fun t => t.header.number == some hgt) :=
  load_batch_traces_stable fsDup "dir"
    [("y.json", trOf 7, 7), ("x.json", trOf 7, 7), ("z.json", trOf 3, 3)]
    (by simp [loadTriples, loadTriple, get_block_trace_from_file, fsDup, trOf,
          Bind.bind, Except.bind])

/-- C5: with `TRACE_PATH` unset (empty) and a mode whose lowercasing is
"batch" or "pack", the resolver yields exactly the 10 bridge trace paths
`01.json` .. `10.json`, in ascending numeric order. -/
theorem resolve_trace_paths_batch_mode (fs : Fs) (mode : String)
    (h : to_lowercase mode = "batch" ∨ to_lowercase mode = "pack") :
    resolve_trace_paths fs "" mode = .ok
      ["zkevm/tests/traces/bridge/01.json", "zkevm/tests/traces/bridge/02.json",
       "zkevm/tests/traces/bridge/03.json", "zkevm/tests/traces/bridge/04.json",
       "zkevm/tests/traces/bridge/05.json", "zkevm/tests/traces/bridge/06.json",
       "zkevm/tests/traces/bridge/07.json", "zkevm/tests/traces/bridge/08.json",
       "zkevm/tests/traces/bridge/09.json", "zkevm/tests/traces/bridge/10.json"] := by
  have hc : (to_lowercase mode == "batch" || to_lowercase mode == "pack") = true := by
    rcases h with h | h <;> simp [h]
  unfold resolve_trace_paths
  rw [if_pos (by decide : ("" : String).isEmpty = true), if_pos hc]
  rfl

/-- Witness for C5 with `MODE="BATCH"`. -/
theorem resolve_trace_paths_batch_mode_witness :
    resolve_trace_paths fsA "" "BATCH" = .ok
      ["zkevm/tests/traces/bridge/01.json", "zkevm/tests/traces/bridge/02.json",
       "zkevm/tests/traces/bridge/03.json", "zkevm/tests/traces/bridge/04.json",
       "zkevm/tests/traces/bridge/05.json", "zkevm/tests/traces/bridge/06.json",
       "zkevm/tests/traces/bridge/07.json", "zkevm/tests/traces/bridge/08.json",
       "zkevm/tests/traces/bridge/09.json", "zkevm/tests/traces/bridge/10.json"] :=
  resolve_trace_paths_batch_mode fsA "BATCH" (Or.inl (by decide))

/-- C6: a non-empty explicit `TRACE_PATH` whose metadata reports a
non-directory resolves to exactly that single path, for every mode, and
the pipeline then loads exactly that one file (no directory discovery). -/
theorem resolve_trace_paths_single_file (fs : Fs) (trace_path mode : String) (m : FsMeta)
    (hne : trace_path.isEmpty = false)
    (hmeta : fs.metadata trace_path = some m)
    (hdir : m.is_dir = false) :
    resolve_trace_paths fs trace_path mode = .ok [trace_path] ∧
    ∀ t, fs.readTrace trace_path = some t →
      load_block_traces_for_test fs trace_path mode = .ok ([trace_path], [t]) := by
  have h1 : resolve_trace_paths fs trace_path mode = .ok [trace_path] := by
    unfold resolve_trace_paths
    rw [if_neg (by simp [hne])]
    rw [hmeta]
    simp [hdir]
  refine ⟨h1, ?_⟩
  intro t ht
  unfold load_block_traces_for_test
  rw [h1]
  simp [Bind.bind, Except.bind, loadTraces, get_block_trace_from_file, ht]

/-- Witness for C6 on `fsSingle`. -/
theorem resolve_trace_paths_single_file_witness :
    resolve_trace_paths fsSingle "one.json" "batch" = .ok ["one.json"] ∧
    ∀ t, fsSingle.readTrace "one.json" = some t →
      load_block_traces_for_test fsSingle "one.json" "batch" = .ok (["one.json"], [t]) :=
  resolve_trace_paths_single_file fsSingle "one.json" "batch" { is_dir := false }
    (by decide) (by decide) rfl

/-- C7: with `TRACE_PATH` unset and `MODE="dao"`, the resolver yields
exactly one path, and that path ends in `dao/propose.json`. -/
theorem resolve_trace_paths_dao (fs : Fs) :
    resolve_trace_paths fs "" "dao" = .ok ["./zkevm/tests/traces/dao/propose.json"] ∧
    ends_with "./zkevm/tests/traces/dao/propose.json" "dao/propose.json" = true := by
  constructor
  · unfold resolve_trace_paths
    rw [if_pos (by decide : ("" : String).isEmpty = true),
      if_neg (by decide : ¬(to_lowercase "dao" == "batch" || to_lowercase "dao" == "pack") = true)]
    rfl
  · decide

/-- C8: a non-empty explicit `TRACE_PATH` whose metadata cannot be read
makes path resolution fail with `ConfigurationError`, which is a
different error from the TraceLoader's `TraceLoadError`. -/
theorem resolve_trace_paths_no_metadata (fs : Fs) (trace_path mode : String)
    (hne : trace_path.isEmpty = false)
    (hmeta : fs.metadata trace_path = none) :
    resolve_trace_paths fs trace_path mode = .error .configurationError ∧
    PipelineError.configurationError ≠ PipelineError.traceLoadError := by
  constructor
  · unfold resolve_trace_paths
    rw [if_neg (by simp [hne])]
    rw [hmeta]
  · decide

/-- Witness for C8 on `fsNoMeta`. -/
theorem resolve_trace_paths_no_metadata_witness :
    resolve_trace_paths fsNoMeta "x.json" "multiple" = .error .configurationError ∧
    PipelineError.configurationError ≠ PipelineError.traceLoadError :=
  resolve_trace_paths_no_metadata fsNoMeta "x.json" "multiple" (by decide) rfl

/-- C9: a successful proving call followed immediately by verification of
the persisted artifact, against the same circuit identity, returns
success. -/
theorem prove_verify_round_trip (circuit_name : String)
    (block_traces : List BlockTrace) (rng : Nat) (proof : ProofArtifact)
    (h : create_target_circuit_proof_batch circuit_name block_traces rng = .ok proof) :
    verify_target_circuit_proof circuit_name
      (deserialize_proof (serialize_proof proof)) = .ok () := by
  unfold create_target_circuit_proof_batch at h
  simp only [Except.ok.injEq] at h
  subst h
  unfold verify_target_circuit_proof serialize_proof deserialize_proof
  simp

/-- Witness for C9: proving `[trOf 1]` for circuit "super" with the fixed
zero seed and verifying the persisted artifact. -/
theorem prove_verify_round_trip_witness :
    verify_target_circuit_proof "super"
      (deserialize_proof (serialize_proof { circuit := "super", batch := [trOf 1] })) =
      .ok () :=
  prove_verify_round_trip "super" [trOf 1] 0 { circuit := "super", batch := [trOf 1] } rfl

/-- The string patterns of the non-batch arms of the `match` in
`parse_trace_path_from_mode`. -/
def recognized_single_modes : List String :=
  ["empty", "greeter", "single", "multiple", "native", "dao", "nft", "sushi"]

/-- C10: mode matching is case-sensitive for every mode other than
batch/pack: a case variant of a recognized single-path mode that is not
exactly lowercase is treated as unrecognized, so the resolver falls back
to the default `erc20/multiple.json` path rather than the mode's own
path. -/
theorem mode_matching_case_sensitive (fs : Fs) (mode : String)
    (hrec : to_lowercase mode ∈ recognized_single_modes)
    (hcase : mode ≠ to_lowercase mode) :
    parse_trace_path_from_mode mode = "./zkevm/tests/traces/erc20/multiple.json" ∧
    resolve_trace_paths fs "" mode = .ok ["./zkevm/tests/traces/erc20/multiple.json"] := by
  have hmode : ∀ s ∈ recognized_single_modes, mode ≠ s := by
    intro s hs heq
    subst heq
    revert hcase
    simp only [recognized_single_modes, List.mem_cons, List.not_mem_nil, or_false] at hs
    rcases hs with rfl | rfl | rfl | rfl | rfl | rfl | rfl | rfl <;> decide
  have hparse : parse_trace_path_from_mode mode = "./zkevm/tests/traces/erc20/multiple.json" := by
    unfold parse_trace_path_from_mode
    split
    · exact absurd rfl (hmode "empty" (by decide))
    · exact absurd rfl (hmode "greeter" (by decide))
    · exact absurd rfl (hmode "single" (by decide))
    · exact absurd rfl (hmode "multiple" (by decide))
    · exact absurd rfl (hmode "native" (by decide))
    · exact absurd rfl (hmode "dao" (by decide))
    · exact absurd rfl (hmode "nft" (by decide))
    · exact absurd rfl (hmode "sushi" (by decide))
    · rfl
  have hc : (to_lowercase mode == "batch" || to_lowercase mode == "pack") = false := by
    simp only [recognized_single_modes, List.mem_cons, List.not_mem_nil, or_false] at hrec
    rcases hrec with h | h | h | h | h | h | h | h <;> rw [h] <;> decide
  refine ⟨hparse, ?_⟩
  unfold resolve_trace_paths
  rw [if_pos (by decide : ("" : String).isEmpty = true), if_neg (by simp [hc]), hparse]

/-- Witness for C10 with `MODE="DAO"`. -/
theorem mode_matching_case_sensitive_witness :
    parse_trace_path_from_mode "DAO" = "./zkevm/tests/traces/erc20/multiple.json" ∧
    resolve_trace_paths fsA "" "DAO" = .ok ["./zkevm/tests/traces/erc20/multiple.json"] :=
  mode_matching_case_sensitive fsA "DAO" (by decide) (by decide)

end ScrollZkevm
